import Mathlib

/-!
Verification of the embedding cache and nearest-neighbor matching engine of the
Attendance-System backend (src/backend/main.py), as a shallow embedding.

Modelling conventions:
* An embedding is a list of real numbers (floats are modelled by ℝ).
* The process-wide in-memory cache (the globals global_known_encodings and
  global_known_student_ids) is a `Store` threaded explicitly through each
  endpoint function.
* The MySQL database is a `DB` record; a database `Error` raised by the driver
  at a given call site is modelled by a boolean flag passed to the function
  (`dbFails` / `dbError`), since the environment decides nondeterministically
  whether the driver raises.
* Library functions used by main.py are embedded from their sources:
  - numpy `np.argmin` returns the index of the FIRST occurrence of the minimum;
  - face_recognition.face_distance(known, q) = np.linalg.norm(known - q, axis=1),
    the Euclidean norm of the elementwise difference of each row;
  - face_recognition.compare_faces(known, q, tolerance) =
    list(face_distance(known, q) <= tolerance)  (non-strict comparison).
* HTTPException responses of /api/register are modelled by `RegisterResult`
  constructors carrying the data the detail string interpolates.
-/

namespace AttendanceSystem

/-- An embedding: fixed-length vector of reals (numpy float array). -/
abbrev Emb := List ℝ

/-- The in-memory cache: the two parallel global lists of main.py
(global_known_encodings, global_known_student_ids). -/
structure Store where
  encodings : List Emb
  studentIds : List String

/-- The durable MySQL state: rows of the students, face_encodings and
attendance tables (only the columns the endpoints touch). -/
structure DB where
  students : List (String × String × String)
  faceEncodings : List (String × Emb)
  attendance : List (String × String)

def emptyStr : String := ""
def msgNoFace : String := "No face detected."
def msgNoStudents : String := "No registered students in database."
def msgDbLog : String := "Database error logging attendance."
def msgRecorded : String := "Attendance recorded."
def msgNotRecognized : String := "Face not recognized."
def nameUnknown : String := "Unknown"
def statusPresent : String := "PRESENT"

/-- Response model of /api/capture (AttendanceResponse in main.py). -/
structure AttendanceResponse where
  success : Bool
  message : String
  student_id : Option String
  name : Option String
  timestamp : String
deriving DecidableEq

/-- Outcomes of /api/register: the success dict or the raised HTTPExceptions
(409 already registered, 400 no face, 400 multiple faces, 409 duplicate
person, 500 database error). -/
inductive RegisterResult where
  | alreadyRegistered (studentId : String)
  | noFaceDetected
  | multipleFaces
  | duplicatePerson (existingId : String)
  | dbError
  | success
deriving DecidableEq

/-- Squared Euclidean distance: sum of squared componentwise differences. -/
def sqDist (a b : Emb) : ℝ := (List.zipWith (fun x y => (x - y) ^ 2) a b).sum

/-- Euclidean (L2) distance between two embeddings, as computed by
np.linalg.norm(a - b). -/
noncomputable def faceDist (a b : Emb) : ℝ := Real.sqrt (sqDist a b)

/-- face_recognition.face_distance(known, q): the list of Euclidean distances
from each stored embedding to the query. -/
noncomputable def face_distance (known : List Emb) (q : Emb) : List ℝ :=
  known.map (fun v => faceDist v q)

/-- face_recognition.compare_faces(known, q, tolerance): per the library source,
list(face_distance(known, q) <= tolerance) — a non-strict threshold test. -/
noncomputable def compare_faces (known : List Emb) (q : Emb) (tolerance : ℝ) :
    List Bool :=
  known.map (fun v => decide (faceDist v q ≤ tolerance))

/-- np.argmin: index of the minimum value; on ties, the first occurrence.
(main.py only calls it on non-empty lists; on [] we return 0.) -/
noncomputable def argmin : List ℝ → Nat
  | [] => 0
  | [_] => 0
  | x :: y :: ys =>
    if x ≤ (y :: ys).getD (argmin (y :: ys)) 0 then 0 else argmin (y :: ys) + 1

/-- The duplicate-person check of register_student (main.py lines 191-198),
with the tolerance exposed as the parameter it is of compare_faces; the
endpoint instantiates it at 0.5.  Returns the id stored at the index of the
first True in the matches list, as matches.index(True) does. -/
noncomputable def containsDuplicate (st : Store) (q : Emb) (tolerance : ℝ) :
    Option String :=
  if 0 < st.encodings.length then
    if true ∈ compare_faces st.encodings q tolerance then
      some (st.studentIds.getD ((compare_faces st.encodings q tolerance).indexOf true)
        emptyStr)
    else none
  else none

/-- load_known_faces (main.py lines 102-124): a full scan of face_encodings;
on a driver Error the exception is caught, logged, and the two lists are
returned as built so far — i.e. empty, since execute/fetchall fail before any
row is appended. -/
def load_known_faces (rows : List (String × Emb)) (dbError : Bool) :
    List Emb × List String :=
  if dbError then ([], [])
  else (rows.map (fun r => r.2), rows.map (fun r => r.1))

/-- The SELECT on students resolving a student_id to "first last", defaulting
to "Unknown" when the row is absent (main.py lines 277-279). -/
def lookupName (db : DB) (sid : String) : String :=
  match db.students.find? (fun s => s.1 == sid) with
  | some s => s.2.1 ++ " " ++ s.2.2
  | none => nameUnknown

/-- /api/register (main.py lines 150-232).  `encodings` is what
face_recognition.face_encodings returned for the uploaded image; `dbFails`
models a driver Error raised inside the final insert/commit block (which the
code answers with rollback and HTTP 500, before the cache appends). -/
noncomputable def register_student (st : Store) (db : DB)
    (student_id first_name last_name : String) (encodings : List Emb)
    (dbFails : Bool) : RegisterResult × Store × DB :=
  if (db.students.find? (fun s => s.1 == student_id)).isSome then
    (RegisterResult.alreadyRegistered student_id, st, db)
  else if encodings.length = 0 then
    (RegisterResult.noFaceDetected, st, db)
  else if 1 < encodings.length then
    (RegisterResult.multipleFaces, st, db)
  else
    match containsDuplicate st encodings.headI (0.5 : ℝ) with
    | some existingId => (RegisterResult.duplicatePerson existingId, st, db)
    | none =>
      if dbFails then (RegisterResult.dbError, st, db)
      else
        (RegisterResult.success,
         ⟨st.encodings ++ [encodings.headI], st.studentIds ++ [student_id]⟩,
         ⟨db.students ++ [(student_id, first_name, last_name)],
          db.faceEncodings ++ [(student_id, encodings.headI)],
          db.attendance⟩)

/-- /api/capture (main.py lines 235-306).  `encodings` is what
face_recognition.face_encodings returned; the code uses encodings[0] (the
first detected face) whenever at least one face is present.  `dbFails` models
a driver Error inside the lookup/insert block (answered with a failure
response, no mutation). -/
noncomputable def capture_attendance (st : Store) (db : DB)
    (encodings : List Emb) (dbFails : Bool) (ts : String) :
    AttendanceResponse × Store × DB :=
  if encodings.length = 0 then
    (⟨false, msgNoFace, none, none, ts⟩, st, db)
  else if st.encodings = [] then
    (⟨false, msgNoStudents, none, none, ts⟩, st, db)
  else if (face_distance st.encodings encodings.headI).getD
      (argmin (face_distance st.encodings encodings.headI)) 0 < (0.5 : ℝ) then
    if dbFails then
      (⟨false, msgDbLog, none, none, ts⟩, st, db)
    else
      (⟨true, msgRecorded,
        some (st.studentIds.getD
          (argmin (face_distance st.encodings encodings.headI)) emptyStr),
        some (lookupName db (st.studentIds.getD
          (argmin (face_distance st.encodings encodings.headI)) emptyStr)),
        ts⟩,
       st,
       ⟨db.students, db.faceEncodings,
        db.attendance ++
          [(st.studentIds.getD
             (argmin (face_distance st.encodings encodings.headI)) emptyStr,
            statusPresent)]⟩)
  else
    (⟨false, msgNotRecognized, none, none, ts⟩, st, db)

/-- The cache agrees with the durable face_encodings table, positionally. -/
def aligned (st : Store) (db : DB) : Prop :=
  st.encodings = db.faceEncodings.map (fun p => p.2)
  ∧ st.studentIds = db.faceEncodings.map (fun p => p.1)

/-! ### Basic lemmas about the distance computation -/

lemma sqDist_nil (b : Emb) : sqDist [] b = 0 := rfl

lemma sqDist_cons (x y : ℝ) (a b : Emb) :
    sqDist (x :: a) (y :: b) = (x - y) ^ 2 + sqDist a b := by
  simp [sqDist]

lemma sqDist_nonneg : ∀ a b : Emb, 0 ≤ sqDist a b
  | [], _ => le_refl 0
  | _ :: _, [] => le_refl 0
  | x :: a, y :: b => by
    rw [sqDist_cons]
    exact add_nonneg (sq_nonneg _) (sqDist_nonneg a b)

lemma sqDist_self : ∀ a : Emb, sqDist a a = 0
  | [] => rfl
  | x :: a => by rw [sqDist_cons, sqDist_self a]; ring

lemma sqDist_eq_zero : ∀ a b : Emb, a.length = b.length → sqDist a b = 0 → a = b
  | [], [], _, _ => rfl
  | x :: a, y :: b, hl, h => by
    rw [sqDist_cons] at h
    have ha : sqDist a b = 0 := by nlinarith [sq_nonneg (x - y), sqDist_nonneg a b]
    have hx : x = y := by nlinarith [sqDist_nonneg a b, sq_nonneg (x - y)]
    have : a = b := sqDist_eq_zero a b (by simpa using hl) ha
    rw [hx, this]

lemma faceDist_nonneg (a b : Emb) : 0 ≤ faceDist a b := Real.sqrt_nonneg _

lemma faceDist_self (a : Emb) : faceDist a a = 0 := by
  rw [faceDist, sqDist_self, Real.sqrt_zero]

lemma faceDist_eq_zero_iff (a b : Emb) (hl : a.length = b.length) :
    faceDist a b = 0 ↔ a = b := by
  rw [faceDist, Real.sqrt_eq_zero (sqDist_nonneg a b)]
  constructor
  · exact sqDist_eq_zero a b hl
  · intro h; rw [h]; exact sqDist_self b

lemma faceDist_le_zero_iff (a b : Emb) (hl : a.length = b.length) :
    faceDist a b ≤ 0 ↔ a = b := by
  rw [← faceDist_eq_zero_iff a b hl]
  exact ⟨fun h => le_antisymm h (faceDist_nonneg a b), le_of_eq⟩

/-! ### argmin: first index of the minimum -/

lemma argmin_nil : argmin [] = 0 := rfl

lemma argmin_singleton (x : ℝ) : argmin [x] = 0 := rfl

lemma argmin_cons_cons (x y : ℝ) (ys : List ℝ) :
    argmin (x :: y :: ys) =
      if x ≤ (y :: ys).getD (argmin (y :: ys)) 0 then 0
      else argmin (y :: ys) + 1 := by
  rw [argmin]

/-- np.argmin semantics: for a non-empty list, the returned index is in
bounds, its value is minimal, and every strictly earlier index holds a
strictly larger value (first occurrence of the minimum). -/
lemma argmin_spec : ∀ l : List ℝ, l ≠ [] →
    argmin l < l.length
    ∧ (∀ i, i < l.length → l.getD (argmin l) 0 ≤ l.getD i 0)
    ∧ (∀ i, i < argmin l → l.getD (argmin l) 0 < l.getD i 0)
  | [], h => absurd rfl h
  | [x], _ => by
    refine ⟨by simp [argmin_singleton], fun i hi => ?_, fun i hi => ?_⟩
    · match i with
      | 0 => simp [argmin_singleton]
      | Nat.succ j => simp at hi
    · simp [argmin_singleton] at hi
  | x :: y :: ys, _ => by
    obtain ⟨ihb, ihmin, ihfirst⟩ := argmin_spec (y :: ys) (by simp)
    rw [argmin_cons_cons]
    by_cases hx : x ≤ (y :: ys).getD (argmin (y :: ys)) 0
    · rw [if_pos hx]
      refine ⟨by simp, fun i hi => ?_, fun i hi => absurd hi (Nat.not_lt_zero i)⟩
      match i with
      | 0 => simp
      | Nat.succ j =>
        rw [List.getD_cons_zero, List.getD_cons_succ]
        exact le_trans hx (ihmin j (by simpa using hi))
    · rw [if_neg hx]
      push_neg at hx
      refine ⟨by simpa using ihb, fun i hi => ?_, fun i hi => ?_⟩
      · match i with
        | 0 => rw [List.getD_cons_succ, List.getD_cons_zero]; exact le_of_lt hx
        | Nat.succ j =>
          rw [List.getD_cons_succ, List.getD_cons_succ]
          exact ihmin j (by simpa using hi)
      · match i with
        | 0 => rw [List.getD_cons_succ, List.getD_cons_zero]; exact hx
        | Nat.succ j =>
          rw [List.getD_cons_succ, List.getD_cons_succ]
          exact ihfirst j (by simpa using hi)

/-! ### face_distance and compare_faces lemmas -/

lemma face_distance_length (known : List Emb) (q : Emb) :
    (face_distance known q).length = known.length := by
  simp [face_distance]

lemma face_distance_getD (known : List Emb) (q : Emb) (i : Nat)
    (hi : i < known.length) :
    (face_distance known q).getD i 0 = faceDist (known.getD i []) q := by
  rw [List.getD_eq_getElem _ _ (by simpa [face_distance_length] using hi),
    List.getD_eq_getElem _ _ hi]
  simp [face_distance]

lemma compare_faces_nil (q : Emb) (tol : ℝ) : compare_faces [] q tol = [] := rfl

lemma compare_faces_cons (v : Emb) (vs : List Emb) (q : Emb) (tol : ℝ) :
    compare_faces (v :: vs) q tol =
      decide (faceDist v q ≤ tol) :: compare_faces vs q tol := by
  simp [compare_faces]

lemma true_mem_compare_faces (known : List Emb) (q : Emb) (tol : ℝ) :
    true ∈ compare_faces known q tol ↔ ∃ v ∈ known, faceDist v q ≤ tol := by
  simp [compare_faces]

/-- matches.index(True) semantics: when some comparison succeeds, the index of
the first True is in bounds, the embedding there is within tolerance, and
every strictly earlier embedding is not. -/
lemma indexOf_true_spec : ∀ (known : List Emb) (q : Emb) (tol : ℝ),
    true ∈ compare_faces known q tol →
    (compare_faces known q tol).indexOf true < known.length
    ∧ faceDist (known.getD ((compare_faces known q tol).indexOf true) []) q ≤ tol
    ∧ ∀ j, j < (compare_faces known q tol).indexOf true →
        ¬ faceDist (known.getD j []) q ≤ tol
  | [], q, tol, h => by simp [compare_faces_nil] at h
  | v :: vs, q, tol, h => by
    by_cases hv : faceDist v q ≤ tol
    · rw [compare_faces_cons, decide_eq_true hv, List.indexOf_cons_self]
      exact ⟨Nat.succ_pos _, by simpa using hv, fun j hj => absurd hj (Nat.not_lt_zero j)⟩
    · have hmem : true ∈ compare_faces vs q tol := by
        rw [compare_faces_cons, decide_eq_false hv] at h
        simpa using h
      obtain ⟨ihb, ihval, ihfirst⟩ := indexOf_true_spec vs q tol hmem
      rw [compare_faces_cons, decide_eq_false hv,
        List.indexOf_cons_ne _ (by simp : false ≠ true)]
      refine ⟨by simpa using ihb, by simpa using ihval, fun j hj => ?_⟩
      match j with
      | 0 => simpa using hv
      | Nat.succ i =>
        rw [List.getD_cons_succ]
        exact ihfirst i (by simpa using hj)

/-! ### Shared structural lemmas about the endpoints -/

/-- capture_attendance never writes the store: shared helper. -/
lemma capture_store_fix (st : Store) (db : DB) (encodings : List Emb)
    (dbFails : Bool) (ts : String) :
    (capture_attendance st db encodings dbFails ts).2.1 = st := by
  simp only [capture_attendance]
  split
  · rfl
  · split
    · rfl
    · split
      · split <;> rfl
      · rfl

/-- register_student preserves cache/durable alignment on every path, and on
a persistence failure leaves both the store and the database untouched. -/
lemma register_aligned (st : Store) (db : DB) (sid fn ln : String)
    (encodings : List Emb) (dbFails : Bool) (hal : aligned st db) :
    aligned (register_student st db sid fn ln encodings dbFails).2.1
      (register_student st db sid fn ln encodings dbFails).2.2
    ∧ (dbFails = true →
        (register_student st db sid fn ln encodings dbFails).2.1 = st
        ∧ (register_student st db sid fn ln encodings dbFails).2.2 = db) := by
  simp only [register_student]
  split
  · exact ⟨hal, fun _ => ⟨rfl, rfl⟩⟩
  · split
    · exact ⟨hal, fun _ => ⟨rfl, rfl⟩⟩
    · split
      · exact ⟨hal, fun _ => ⟨rfl, rfl⟩⟩
      · split
        · exact ⟨hal, fun _ => ⟨rfl, rfl⟩⟩
        · split
          · exact ⟨hal, fun _ => ⟨rfl, rfl⟩⟩
          · rename_i hf
            refine ⟨⟨?_, ?_⟩, fun hf2 => absurd hf2 hf⟩
            · simp [hal.1]
            · simp [hal.2]

/-! ### Claim theorems -/

/-- Claim C8: every recognition (attendance-capture) call, whatever its
outcome — no face, empty store, not recognized, recognized, or a database
error while logging attendance — leaves the in-memory cache (the
known-encodings list and the known-student-ids list) unchanged: recognition
only reads the cache. -/
theorem c8_capture_readonly_cache (st : Store) (db : DB) (encodings : List Emb)
    (dbFails : Bool) (ts : String) :
    (capture_attendance st db encodings dbFails ts).2.1 = st :=
  capture_store_fix st db encodings dbFails ts

/-- Claim C6: if the startup scan of the durable store fails with a database
error, the load returns empty lists instead of propagating the failure (the
process keeps running with an empty store), and a subsequent capture against
that empty store answers with the normal negative "no registered students"
response rather than an error. -/
theorem c6_startup_scan_failure (rows : List (String × Emb)) (db : DB)
    (q : Emb) (more : List Emb) (dbFails : Bool) (ts : String) :
    load_known_faces rows true = ([], [])
    ∧ (capture_attendance
        ⟨(load_known_faces rows true).1, (load_known_faces rows true).2⟩
        db (q :: more) dbFails ts).1
      = ⟨false, msgNoStudents, none, none, ts⟩ := by
  constructor
  · simp [load_known_faces]
  · simp [load_known_faces, capture_attendance]

/-- capture_attendance never writes the face_encodings table: shared helper. -/
lemma capture_faceEncodings_fix (st : Store) (db : DB) (encodings : List Emb)
    (dbFails : Bool) (ts : String) :
    (capture_attendance st db encodings dbFails ts).2.2.faceEncodings
      = db.faceEncodings := by
  simp only [capture_attendance]
  split
  · rfl
  · split
    · rfl
    · split
      · split <;> rfl
      · rfl

/-- An aligned store has equally long encoding/id lists: shared helper. -/
lemma aligned_length {st : Store} {db : DB} (h : aligned st db) :
    st.encodings.length = st.studentIds.length := by
  rw [h.1, h.2]
  simp

/-- Claim C10: after the startup load and after every registration or capture
call, on every success or failure path, the known-encodings list and the
known-student-ids list have equal length and are positionally aligned: entry
i of each list comes from the same enrollment, i.e. the same face_encodings
row (the `aligned` predicate).  A failed load yields two empty (vacuously
aligned) lists. -/
theorem c10_parallel_lists_invariant (rows : List (String × Emb))
    (students : List (String × String × String)) (att : List (String × String))
    (st : Store) (db : DB) (sid fn ln : String)
    (encodings encodings2 : List Emb) (dbFails dbFails2 : Bool) (ts : String)
    (hal : aligned st db) :
    aligned ⟨(load_known_faces rows false).1, (load_known_faces rows false).2⟩
      ⟨students, rows, att⟩
    ∧ (load_known_faces rows false).1.length
      = (load_known_faces rows false).2.length
    ∧ load_known_faces rows true = ([], [])
    ∧ aligned (register_student st db sid fn ln encodings dbFails).2.1
        (register_student st db sid fn ln encodings dbFails).2.2
    ∧ (register_student st db sid fn ln encodings dbFails).2.1.encodings.length
      = (register_student st db sid fn ln encodings dbFails).2.1.studentIds.length
    ∧ aligned (capture_attendance st db encodings2 dbFails2 ts).2.1
        (capture_attendance st db encodings2 dbFails2 ts).2.2
    ∧ (capture_attendance st db encodings2 dbFails2 ts).2.1.encodings.length
      = (capture_attendance st db encodings2 dbFails2 ts).2.1.studentIds.length := by
  have hload : aligned
      ⟨(load_known_faces rows false).1, (load_known_faces rows false).2⟩
      ⟨students, rows, att⟩ := by
    constructor <;> simp [load_known_faces]
  have hreg := (register_aligned st db sid fn ln encodings dbFails hal).1
  have hcap : aligned (capture_attendance st db encodings2 dbFails2 ts).2.1
      (capture_attendance st db encodings2 dbFails2 ts).2.2 := by
    constructor
    · rw [capture_store_fix, capture_faceEncodings_fix]
      exact hal.1
    · rw [capture_store_fix, capture_faceEncodings_fix]
      exact hal.2
  exact ⟨hload, aligned_length hload, by simp [load_known_faces],
    hreg, aligned_length hreg, hcap, aligned_length hcap⟩

/-- Claim C3: registration treats the in-memory append and the durable write
as one transaction: alignment between the cache and the durable
face_encodings table is preserved on every enrollment path, and when the
durable write fails the cache (and the database) are left exactly as they
were. -/
theorem c3_rollback_on_persistence_failure (st : Store) (db : DB)
    (sid fn ln : String) (encodings : List Emb) (dbFails : Bool)
    (hal : aligned st db) :
    aligned (register_student st db sid fn ln encodings dbFails).2.1
      (register_student st db sid fn ln encodings dbFails).2.2
    ∧ (dbFails = true →
        (register_student st db sid fn ln encodings dbFails).2.1 = st
        ∧ (register_student st db sid fn ln encodings dbFails).2.2 = db) :=
  register_aligned st db sid fn ln encodings dbFails hal

/-- Claim C4: when the identity-id is already present in the students table,
registration fails with AlreadyRegisteredId and changes nothing — for every
candidate embedding list, however similar or dissimilar to stored embeddings,
because the id check is an identity lookup performed before the
duplicate-person distance check. -/
theorem c4_already_registered_id (st : Store) (db : DB) (sid fn ln : String)
    (encodings : List Emb) (dbFails : Bool)
    (h : ∃ s ∈ db.students, s.1 = sid) :
    register_student st db sid fn ln encodings dbFails
      = (RegisterResult.alreadyRegistered sid, st, db) := by
  have hf : (db.students.find? (fun s => s.1 == sid)).isSome := by
    rw [List.find?_isSome]
    obtain ⟨s, hs, he⟩ := h
    exact ⟨s, hs, by simp [he]⟩
  simp only [register_student]
  rw [if_pos hf]

/-- Single-face capture, matched branch: when the minimum distance is below
the 0.5 threshold and the attendance insert succeeds, the response is the
positive identification of the id stored at the argmin index. -/
lemma capture_single_recognized (st : Store) (db : DB) (q : Emb) (ts : String)
    (hne : st.encodings ≠ [])
    (hlt : (face_distance st.encodings q).getD
      (argmin (face_distance st.encodings q)) 0 < (0.5 : ℝ)) :
    (capture_attendance st db [q] false ts).1 =
      ⟨true, msgRecorded,
       some (st.studentIds.getD (argmin (face_distance st.encodings q)) emptyStr),
       some (lookupName db
         (st.studentIds.getD (argmin (face_distance st.encodings q)) emptyStr)),
       ts⟩ := by
  simp only [capture_attendance, List.headI]
  rw [if_neg (by simp), if_neg hne, if_pos hlt]
  simp

/-- Single-face capture, unmatched branch: when the minimum distance is not
below the 0.5 threshold, the response is the NotRecognized failure. -/
lemma capture_single_not_recognized (st : Store) (db : DB) (q : Emb)
    (ts : String) (hne : st.encodings ≠ [])
    (hge : ¬ (face_distance st.encodings q).getD
      (argmin (face_distance st.encodings q)) 0 < (0.5 : ℝ)) :
    (capture_attendance st db [q] false ts).1 =
      ⟨false, msgNotRecognized, none, none, ts⟩ := by
  simp only [capture_attendance, List.headI]
  rw [if_neg (by simp), if_neg hne, if_neg hge]

/-- Claim C1: for a non-empty store, recognition selects the index of minimum
Euclidean distance to the query (ties broken by first occurrence in store
order), answers with the positive identification of the identity stored at
that index exactly when the minimum distance is strictly below the 0.5
recognition threshold, and answers NotRecognized otherwise. -/
theorem c1_nearest_neighbor_decision (st : Store) (db : DB) (q : Emb)
    (ts : String) (hne : st.encodings ≠ []) :
    argmin (face_distance st.encodings q) < st.encodings.length
    ∧ (∀ i, i < st.encodings.length →
        (face_distance st.encodings q).getD
          (argmin (face_distance st.encodings q)) 0
          ≤ (face_distance st.encodings q).getD i 0)
    ∧ (∀ i, i < argmin (face_distance st.encodings q) →
        (face_distance st.encodings q).getD
          (argmin (face_distance st.encodings q)) 0
          < (face_distance st.encodings q).getD i 0)
    ∧ ((face_distance st.encodings q).getD
          (argmin (face_distance st.encodings q)) 0 < (0.5 : ℝ) →
        (capture_attendance st db [q] false ts).1.success = true
        ∧ (capture_attendance st db [q] false ts).1.student_id
          = some (st.studentIds.getD (argmin (face_distance st.encodings q))
              emptyStr))
    ∧ (¬ (face_distance st.encodings q).getD
          (argmin (face_distance st.encodings q)) 0 < (0.5 : ℝ) →
        (capture_attendance st db [q] false ts).1
          = ⟨false, msgNotRecognized, none, none, ts⟩) := by
  have hds : face_distance st.encodings q ≠ [] := by
    simpa [face_distance] using hne
  obtain ⟨hb, hmin, hfirst⟩ := argmin_spec _ hds
  rw [face_distance_length] at hb
  refine ⟨hb, fun i hi => hmin i (by simpa [face_distance_length] using hi),
    hfirst, fun hlt => ?_, fun hge => ?_⟩
  · rw [capture_single_recognized st db q ts hne hlt]
    exact ⟨rfl, rfl⟩
  · exact capture_single_not_recognized st db q ts hne hge

/-- Claim C9: when the query embedding equals some stored embedding (and the
store respects the fixed-dimension invariant), recognition matches at
distance 0: the selected index holds an embedding equal to the query and the
response is the positive identification of the identity stored there. -/
theorem c9_reflexive_match (st : Store) (db : DB) (q : Emb) (ts : String)
    (hq : q ∈ st.encodings)
    (hdim : ∀ v ∈ st.encodings, v.length = q.length) :
    (face_distance st.encodings q).getD
      (argmin (face_distance st.encodings q)) 0 = 0
    ∧ st.encodings.getD (argmin (face_distance st.encodings q)) [] = q
    ∧ (capture_attendance st db [q] false ts).1.success = true
    ∧ (capture_attendance st db [q] false ts).1.student_id
      = some (st.studentIds.getD (argmin (face_distance st.encodings q))
          emptyStr) := by
  have hne : st.encodings ≠ [] := List.ne_nil_of_mem hq
  have hds : face_distance st.encodings q ≠ [] := by
    simpa [face_distance] using hne
  obtain ⟨hb, hmin, _⟩ := argmin_spec _ hds
  rw [face_distance_length] at hb
  obtain ⟨i, hi, hiq⟩ := List.getElem_of_mem hq
  have hzero_i : (face_distance st.encodings q).getD i 0 = 0 := by
    rw [face_distance_getD st.encodings q i hi,
      List.getD_eq_getElem _ _ hi, hiq]
    exact faceDist_self q
  have hle : (face_distance st.encodings q).getD
      (argmin (face_distance st.encodings q)) 0 ≤ 0 := by
    have h0 := hmin i (by simpa [face_distance_length] using hi)
    rwa [hzero_i] at h0
  have hge : 0 ≤ (face_distance st.encodings q).getD
      (argmin (face_distance st.encodings q)) 0 := by
    rw [face_distance_getD st.encodings q _ hb]
    exact faceDist_nonneg _ _
  have hzero := le_antisymm hle hge
  have hsel : st.encodings.getD (argmin (face_distance st.encodings q)) [] = q := by
    have hmem : st.encodings.getD (argmin (face_distance st.encodings q)) []
        ∈ st.encodings := by
      rw [List.getD_eq_getElem _ _ hb]
      exact List.getElem_mem hb
    have hd0 : faceDist
        (st.encodings.getD (argmin (face_distance st.encodings q)) []) q = 0 := by
      rw [← face_distance_getD st.encodings q _ hb]
      exact hzero
    exact (faceDist_eq_zero_iff _ q (hdim _ hmem)).mp hd0
  have hlt : (face_distance st.encodings q).getD
      (argmin (face_distance st.encodings q)) 0 < (0.5 : ℝ) := by
    rw [hzero]; norm_num
  rw [capture_single_recognized st db q ts hne hlt]
  exact ⟨hzero, hsel, rfl, rfl⟩

/-- When no stored embedding is within tolerance, the duplicate check reports
nothing. -/
lemma containsDuplicate_eq_none (st : Store) (q : Emb) (tol : ℝ)
    (h : ∀ v ∈ st.encodings, ¬ faceDist v q ≤ tol) :
    containsDuplicate st q tol = none := by
  simp only [containsDuplicate]
  split
  · rw [if_neg]
    intro hmem
    obtain ⟨v, hv, hle⟩ := (true_mem_compare_faces _ _ _).mp hmem
    exact h v hv hle
  · rfl

/-- When some stored embedding is within tolerance, the duplicate check
reports the id stored at the first satisfying index. -/
lemma containsDuplicate_eq_some (st : Store) (q : Emb) (tol : ℝ)
    (h : ∃ v ∈ st.encodings, faceDist v q ≤ tol) :
    ∃ k, k < st.encodings.length
      ∧ faceDist (st.encodings.getD k []) q ≤ tol
      ∧ (∀ j, j < k → ¬ faceDist (st.encodings.getD j []) q ≤ tol)
      ∧ containsDuplicate st q tol = some (st.studentIds.getD k emptyStr) := by
  have hmem : true ∈ compare_faces st.encodings q tol :=
    (true_mem_compare_faces _ _ _).mpr h
  obtain ⟨hb, hval, hfirst⟩ := indexOf_true_spec st.encodings q tol hmem
  refine ⟨(compare_faces st.encodings q tol).indexOf true, hb, hval, hfirst, ?_⟩
  simp only [containsDuplicate]
  rw [if_pos, if_pos hmem]
  obtain ⟨v, hv, _⟩ := h
  exact List.length_pos.mpr (List.ne_nil_of_mem hv)

/-- Claim C7: with tolerance 0 the duplicate check reports a duplicate
exactly when some stored embedding is equal to the candidate (given the
fixed-dimension store invariant), and never otherwise. -/
theorem c7_zero_tolerance_exact_match (st : Store) (q : Emb)
    (hdim : ∀ v ∈ st.encodings, v.length = q.length) :
    (containsDuplicate st q 0).isSome ↔ q ∈ st.encodings := by
  constructor
  · intro hs
    by_contra hq
    have hnone : containsDuplicate st q 0 = none := by
      apply containsDuplicate_eq_none
      intro v hv hle
      have := (faceDist_le_zero_iff v q (hdim v hv)).mp hle
      exact hq (this ▸ hv)
    rw [hnone] at hs
    simp at hs
  · intro hq
    obtain ⟨k, _, _, _, hsome⟩ := containsDuplicate_eq_some st q 0
      ⟨q, hq, le_of_eq (faceDist_self q)⟩
    rw [hsome]
    rfl

/-- register_student with a fresh id and a single detected face reduces to
the duplicate check stage. -/
lemma register_fresh_id (st : Store) (db : DB) (sid fn ln : String) (q : Emb)
    (dbFails : Bool) (hid : ∀ s ∈ db.students, s.1 ≠ sid) :
    register_student st db sid fn ln [q] dbFails =
      match containsDuplicate st q (0.5 : ℝ) with
      | some existingId => (RegisterResult.duplicatePerson existingId, st, db)
      | none =>
        if dbFails then (RegisterResult.dbError, st, db)
        else
          (RegisterResult.success,
           ⟨st.encodings ++ [q], st.studentIds ++ [sid]⟩,
           ⟨db.students ++ [(sid, fn, ln)],
            db.faceEncodings ++ [(sid, q)], db.attendance⟩) := by
  have hnone : db.students.find? (fun s => s.1 == sid) = none := by
    rw [List.find?_eq_none]
    intro s hs
    simpa using hid s hs
  simp only [register_student, hnone, List.headI]
  rfl

/-- Claim C2 (amended): with a fresh identity-id and one detected face, the
duplicate check fires exactly when some stored embedding is at distance AT
MOST 0.5 from the candidate (compare_faces uses a non-strict tolerance test),
and the reported existing id is the one stored at the first satisfying index
in store order. -/
theorem c2_duplicate_person_check (st : Store) (db : DB) (sid fn ln : String)
    (q : Emb) (dbFails : Bool) (hid : ∀ s ∈ db.students, s.1 ≠ sid) :
    ((∃ v ∈ st.encodings, faceDist v q ≤ (0.5 : ℝ)) →
      ∃ k, k < st.encodings.length
        ∧ faceDist (st.encodings.getD k []) q ≤ (0.5 : ℝ)
        ∧ (∀ j, j < k → ¬ faceDist (st.encodings.getD j []) q ≤ (0.5 : ℝ))
        ∧ (register_student st db sid fn ln [q] dbFails).1
          = RegisterResult.duplicatePerson (st.studentIds.getD k emptyStr))
    ∧ ((∀ v ∈ st.encodings, ¬ faceDist v q ≤ (0.5 : ℝ)) →
      ∀ existingId, (register_student st db sid fn ln [q] dbFails).1
        ≠ RegisterResult.duplicatePerson existingId) := by
  constructor
  · intro h
    obtain ⟨k, hk, hval, hfirst, hsome⟩ := containsDuplicate_eq_some st q 0.5 h
    refine ⟨k, hk, hval, hfirst, ?_⟩
    rw [register_fresh_id st db sid fn ln q dbFails hid, hsome]
  · intro h existingId
    rw [register_fresh_id st db sid fn ln q dbFails hid,
      containsDuplicate_eq_none st q 0.5 h]
    by_cases hf : dbFails = true <;> simp [hf]

/-! ### Concrete sample data for witnesses and counterexamples -/

def sidA : String := "S001"
def sidB : String := "S002"
def fnA : String := "Alice"
def lnA : String := "Smith"
def tsA : String := "2026-01-01T00:00:00Z"
def emb0 : Emb := [0]
def emb1 : Emb := [1]
def embHalf : Emb := [(0.5 : ℝ)]
def stA : Store := ⟨[emb0], [sidA]⟩
def dbA : DB := ⟨[(sidA, fnA, lnA)], [(sidA, emb0)], []⟩
def stH : Store := ⟨[embHalf], [sidA]⟩
def dbH : DB := ⟨[], [(sidA, embHalf)], []⟩

lemma faceDist_embHalf_emb0 : faceDist embHalf emb0 = (0.5 : ℝ) := by
  have hsq : sqDist embHalf emb0 = (0.5 : ℝ) ^ 2 := by
    simp [embHalf, emb0, sqDist]
  rw [faceDist, hsq, Real.sqrt_sq (by norm_num)]

/-- Claim C5 counterexample: a capture whose image contains two faces is not
rejected: the first face is matched, the call succeeds, and an attendance row
is inserted. -/
theorem c5_counterexample :
    1 < ([emb0, emb1] : List Emb).length
    ∧ (capture_attendance stA dbA [emb0, emb1] false tsA).1.success = true
    ∧ (capture_attendance stA dbA [emb0, emb1] false tsA).1.student_id
      = some sidA
    ∧ (capture_attendance stA dbA [emb0, emb1] false tsA).2.2.attendance
      = [(sidA, statusPresent)] := by
  have hds : face_distance stA.encodings emb0 = [0] := by
    show face_distance [emb0] emb0 = [0]
    simp [face_distance, faceDist_self]
  have hres : capture_attendance stA dbA [emb0, emb1] false tsA
      = (⟨true, msgRecorded, some sidA, some (lookupName dbA sidA), tsA⟩, stA,
         ⟨dbA.students, dbA.faceEncodings, [(sidA, statusPresent)]⟩) := by
    simp only [capture_attendance, List.headI]
    rw [if_neg (by simp), if_neg (by simp [stA])]
    simp only [hds, argmin_singleton, List.getD_cons_zero]
    rw [if_pos (by norm_num)]
    simp [stA, dbA]
  rw [hres]
  exact ⟨by simp, rfl, rfl, rfl⟩

/-- Claim C5 (amended): capture rejects an image with zero faces, but does
NOT reject an image with several faces: it behaves exactly as if only the
first detected face were present. -/
theorem c5_face_count_policy (st : Store) (db : DB) (q : Emb)
    (more : List Emb) (dbFails : Bool) (ts : String) :
    capture_attendance st db [] dbFails ts
      = (⟨false, msgNoFace, none, none, ts⟩, st, db)
    ∧ capture_attendance st db (q :: more) dbFails ts
      = capture_attendance st db [q] dbFails ts := by
  constructor
  · simp [capture_attendance]
  · simp [capture_attendance, List.headI]

/-- Claim C2 counterexample: a stored embedding at Euclidean distance exactly
0.5 — not strictly below the 0.5 tolerance — is still reported as a
duplicate person, because compare_faces uses a non-strict comparison. -/
theorem c2_counterexample :
    (register_student stH dbH sidB fnA lnA [emb0] false).1
      = RegisterResult.duplicatePerson sidA
    ∧ stH.encodings = [embHalf]
    ∧ ¬ faceDist embHalf emb0 < (0.5 : ℝ) := by
  refine ⟨?_, rfl, ?_⟩
  · have hcf : compare_faces stH.encodings emb0 (0.5 : ℝ) = [true] := by
      show compare_faces [embHalf] emb0 (0.5 : ℝ) = [true]
      rw [compare_faces_cons, compare_faces_nil,
        decide_eq_true (by rw [faceDist_embHalf_emb0])]
    have hsome : containsDuplicate stH emb0 (0.5 : ℝ) = some sidA := by
      simp only [containsDuplicate, hcf]
      rw [if_pos (by simp [stH]), if_pos (by simp)]
      rw [List.indexOf_cons_self]
      rfl
    rw [register_fresh_id stH dbH sidB fnA lnA emb0 false
      (by intro s hs; simp [dbH] at hs), hsome]
  · rw [faceDist_embHalf_emb0]
    exact lt_irrefl _

/-! ### Witnesses: each theorem with a hypothesis applied at concrete data -/

/-- Witness for C1 at a one-entry store and the query [1]. -/
theorem c1_witness :
    stA.encodings ≠ []
    ∧ (argmin (face_distance stA.encodings emb1) < stA.encodings.length
      ∧ (∀ i, i < stA.encodings.length →
          (face_distance stA.encodings emb1).getD
            (argmin (face_distance stA.encodings emb1)) 0
            ≤ (face_distance stA.encodings emb1).getD i 0)
      ∧ (∀ i, i < argmin (face_distance stA.encodings emb1) →
          (face_distance stA.encodings emb1).getD
            (argmin (face_distance stA.encodings emb1)) 0
            < (face_distance stA.encodings emb1).getD i 0)
      ∧ ((face_distance stA.encodings emb1).getD
            (argmin (face_distance stA.encodings emb1)) 0 < (0.5 : ℝ) →
          (capture_attendance stA dbA [emb1] false tsA).1.success = true
          ∧ (capture_attendance stA dbA [emb1] false tsA).1.student_id
            = some (stA.studentIds.getD
                (argmin (face_distance stA.encodings emb1)) emptyStr))
      ∧ (¬ (face_distance stA.encodings emb1).getD
            (argmin (face_distance stA.encodings emb1)) 0 < (0.5 : ℝ) →
          (capture_attendance stA dbA [emb1] false tsA).1
            = ⟨false, msgNotRecognized, none, none, tsA⟩)) :=
  ⟨by simp [stA], c1_nearest_neighbor_decision stA dbA emb1 tsA (by simp [stA])⟩

/-- Witness for the amended C2 at a fresh id and a one-entry store. -/
theorem c2_witness :
    (∀ s ∈ dbH.students, s.1 ≠ sidB)
    ∧ (((∃ v ∈ stH.encodings, faceDist v emb0 ≤ (0.5 : ℝ)) →
        ∃ k, k < stH.encodings.length
          ∧ faceDist (stH.encodings.getD k []) emb0 ≤ (0.5 : ℝ)
          ∧ (∀ j, j < k → ¬ faceDist (stH.encodings.getD j []) emb0 ≤ (0.5 : ℝ))
          ∧ (register_student stH dbH sidB fnA lnA [emb0] false).1
            = RegisterResult.duplicatePerson (stH.studentIds.getD k emptyStr))
      ∧ ((∀ v ∈ stH.encodings, ¬ faceDist v emb0 ≤ (0.5 : ℝ)) →
        ∀ existingId, (register_student stH dbH sidB fnA lnA [emb0] false).1
          ≠ RegisterResult.duplicatePerson existingId)) :=
  ⟨by intro s hs; simp [dbH] at hs,
   c2_duplicate_person_check stH dbH sidB fnA lnA emb0 false
     (by intro s hs; simp [dbH] at hs)⟩

/-- Witness for C3 at an aligned store/database pair. -/
theorem c3_witness :
    aligned stA dbA
    ∧ (aligned (register_student stA dbA sidB fnA lnA [emb1] true).2.1
        (register_student stA dbA sidB fnA lnA [emb1] true).2.2
      ∧ (true = true →
          (register_student stA dbA sidB fnA lnA [emb1] true).2.1 = stA
          ∧ (register_student stA dbA sidB fnA lnA [emb1] true).2.2 = dbA)) :=
  ⟨⟨rfl, rfl⟩,
   c3_rollback_on_persistence_failure stA dbA sidB fnA lnA [emb1] true
     ⟨rfl, rfl⟩⟩

/-- Witness for C4 at an id that is already in the students table. -/
theorem c4_witness :
    (∃ s ∈ dbA.students, s.1 = sidA)
    ∧ register_student stA dbA sidA fnA lnA [emb1] false
      = (RegisterResult.alreadyRegistered sidA, stA, dbA) :=
  ⟨⟨(sidA, fnA, lnA), by simp [dbA], rfl⟩,
   c4_already_registered_id stA dbA sidA fnA lnA [emb1] false
     ⟨(sidA, fnA, lnA), by simp [dbA], rfl⟩⟩

/-- Witness for C7 at a one-entry store whose entry equals the candidate. -/
theorem c7_witness :
    (∀ v ∈ stA.encodings, v.length = emb0.length)
    ∧ ((containsDuplicate stA emb0 0).isSome ↔ emb0 ∈ stA.encodings) :=
  ⟨by intro v hv; simp [stA] at hv; simp [hv],
   c7_zero_tolerance_exact_match stA emb0
     (by intro v hv; simp [stA] at hv; simp [hv])⟩

/-- Witness for C9 at a query equal to the stored embedding. -/
theorem c9_witness :
    emb0 ∈ stA.encodings
    ∧ (∀ v ∈ stA.encodings, v.length = emb0.length)
    ∧ ((face_distance stA.encodings emb0).getD
        (argmin (face_distance stA.encodings emb0)) 0 = 0
      ∧ stA.encodings.getD (argmin (face_distance stA.encodings emb0)) [] = emb0
      ∧ (capture_attendance stA dbA [emb0] false tsA).1.success = true
      ∧ (capture_attendance stA dbA [emb0] false tsA).1.student_id
        = some (stA.studentIds.getD
            (argmin (face_distance stA.encodings emb0)) emptyStr)) :=
  ⟨by simp [stA],
   by intro v hv; simp [stA] at hv; simp [hv],
   c9_reflexive_match stA dbA emb0 tsA (by simp [stA])
     (by intro v hv; simp [stA] at hv; simp [hv])⟩

/-- Witness for C10 at an aligned store/database pair. -/
theorem c10_witness :
    aligned stA dbA
    ∧ (aligned
        ⟨(load_known_faces [(sidA, emb0)] false).1,
         (load_known_faces [(sidA, emb0)] false).2⟩
        ⟨[], [(sidA, emb0)], []⟩
      ∧ (load_known_faces [(sidA, emb0)] false).1.length
        = (load_known_faces [(sidA, emb0)] false).2.length
      ∧ load_known_faces [(sidA, emb0)] true = ([], [])
      ∧ aligned (register_student stA dbA sidB fnA lnA [emb1] false).2.1
          (register_student stA dbA sidB fnA lnA [emb1] false).2.2
      ∧ (register_student stA dbA sidB fnA lnA [emb1] false).2.1.encodings.length
        = (register_student stA dbA sidB fnA lnA [emb1] false).2.1.studentIds.length
      ∧ aligned (capture_attendance stA dbA [emb1] false tsA).2.1
          (capture_attendance stA dbA [emb1] false tsA).2.2
      ∧ (capture_attendance stA dbA [emb1] false tsA).2.1.encodings.length
        = (capture_attendance stA dbA [emb1] false tsA).2.1.studentIds.length) :=
  ⟨⟨rfl, rfl⟩,
   c10_parallel_lists_invariant [(sidA, emb0)] [] [] stA dbA sidB fnA lnA
     [emb1] [emb1] false false tsA ⟨rfl, rfl⟩⟩

end AttendanceSystem
